import Mathlib

/-!
Verification development for the Kaldi driver `src/bin/compile-train-graphs-fsts.cc`.

The driver reads per-utterance grammar FSTs from a keyed archive, compiles each
into a training (decoding) graph via a `TrainingGraphCompiler`, and writes the
graphs to an output archive, either one at a time (`batch_size == 1`) or in
batches (`CompileGraphs`).  Below, the driver's control flow is embedded
shallowly: the input archive is a list of (key, fst) pairs read in order, the
output archive is the list of (key, fst) pairs written in order, and the two
success/failure counters are naturals.  Weights are modelled as rationals
(exact stand-ins for the C++ floats; no claim here depends on rounding).

The `TrainingGraphCompiler` class itself (decoder/training-graph-compiler.h/cc)
is not part of this repository snapshot; only the driver is.  Where a claim
needs its behaviour, definitions below are modelled from the spec and say so in
their doc comments.
-/

/-- A weighted transducer in the style of OpenFst's `VectorFst<StdArc>`:
a number of states (states are `0, ..., numStates - 1`), an optional start
state (`none` models `kNoStateId`), final weights, and arcs
`(state, ilabel, olabel, weight, nextstate)`. -/
structure StdFst where
  numStates : Nat
  start : Option Nat
  finalWeights : List (Nat × Rat)
  arcs : List (Nat × Nat × Nat × Rat × Nat)
deriving DecidableEq, Repr

/-- The FST with no states: no start state, no finals, no arcs. -/
def emptyFst : StdFst := { numStates := 0, start := none, finalWeights := [], arcs := [] }

/-- `VectorFst::DeleteStates()`: removes every state, leaving the empty FST
(start becomes `kNoStateId`). -/
def deleteStates (_ : StdFst) : StdFst := emptyFst

/-- Modelled from the spec: a `TrainingGraphCompiler` in the *ready* state.
Its shared resources (context-dependency tree, transition model, prepared
lexicon, disambiguation symbols) are read-only for its whole lifetime, so the
compilation pipeline (Context Expander followed by HMM Topology Inserter) is a
pure function of the grammar; `none` models the recoverable per-utterance
failure case (grammar structurally incompatible with the lexicon, no valid
path).  The pipeline's own code (decoder/training-graph-compiler.cc) is not in
this repository snapshot, so it is kept as an abstract function field. -/
structure ReadyCompiler where
  pipeline : StdFst → Option StdFst

/-- Modelled from the spec: `CompileGraph(grammar) -> (success, decoding graph)`.
Returns success = false and an empty graph when the grammar is structurally
incompatible with the lexicon; otherwise success = true and the compiled
graph. -/
def CompileGraph (gc : ReadyCompiler) (grammar : StdFst) : Bool × StdFst :=
  match gc.pipeline grammar with
  | some f => (true, f)
  | none => (false, emptyFst)

/-- Modelled from the spec: `CompileGraphs` over a batch "must produce output
identical to calling CompileGraph once per element of the batch, element-wise",
with all-or-nothing success (per-utterance grammar failures are already folded
into empty graphs at the single-graph granularity, so the batch call itself
succeeds). -/
def CompileGraphs (gc : ReadyCompiler) (grammars : List StdFst) :
    Bool × List StdFst :=
  (true, grammars.map (fun g => (CompileGraph gc g).2))

/-- The graph the `batch_size == 1` path writes for one utterance: the compiled
graph on success, and the state-deleted (empty) graph when `CompileGraph`
returned false. -/
def seqWritten (gc : ReadyCompiler) (grammar : StdFst) : StdFst :=
  let r := CompileGraph gc grammar
  if r.1 then r.2 else deleteStates r.2

/-- The `batch_size == 1` path's per-utterance success test:
`decode_fst.Start() != fst::kNoStateId`. -/
def seqSucceeded (gc : ReadyCompiler) (grammar : StdFst) : Bool :=
  (seqWritten gc grammar).start.isSome

/-- The `batch_size == 1` loop of the driver: for each (key, grammar) in archive
order, compile, write the (possibly emptied) graph under the key, and count it
as succeeded when its start state is valid.  Returns (written archive,
num_succeed, num_fail). -/
def runSeq (gc : ReadyCompiler) :
    List (String × StdFst) → List (String × StdFst) × Nat × Nat
  | [] => ([], 0, 0)
  | (k, g) :: rest =>
      let d := seqWritten gc g
      let r := runSeq gc rest
      ((k, d) :: r.1,
        (if seqSucceeded gc g then r.2.1 + 1 else r.2.1),
        (if seqSucceeded gc g then r.2.2 else r.2.2 + 1))

/-- One batch of the driver's batched path, parametric in the batch-compilation
function so that the driver's reaction to a contract violation is itself
statable: `KALDI_ERR` when `CompileGraphs` returns false, the
`assert(fsts.size() == keys.size())` when the output count mismatches, and
otherwise the keys zipped with the produced graphs, written in order, together
with the `num_succeed += fsts.size()` increment. -/
def processBatch (cgs : List StdFst → Bool × List StdFst)
    (batch : List (String × StdFst)) :
    Except String (List (String × StdFst) × Nat) :=
  let keys := batch.map Prod.fst
  let grammars := batch.map Prod.snd
  match cgs grammars with
  | (false, _) => Except.error "Not expecting CompileGraphs to fail."
  | (true, fsts) =>
      if fsts.length = keys.length then Except.ok (keys.zip fsts, fsts.length)
      else Except.error "assertion failed: fsts.size() == keys.size()"

/-- The driver's batched (`batch_size != 1`) read loop, fuelled to make possible
non-termination observable: each outer iteration fills a batch of up to
`bs` utterances (the inner loop runs while the reader is not done and
`(int32)grammars.size() < batch_size`, so a non-positive `bs` fills nothing and
never advances the reader), processes it, and repeats until the reader is done.
`none` means the fuel ran out (the loop was still running); `some (.error e)`
models a fatal abort (`KALDI_ERR` / failed assertion); `some (.ok ...)` is a
normal completion with (written archive, num_succeed, num_fail).  The batched
path never increments `num_fail`. -/
def runBatchFuel (cgs : List StdFst → Bool × List StdFst) (bs : Int) :
    Nat → List (String × StdFst) →
      Option (Except String (List (String × StdFst) × Nat × Nat))
  | 0, rem => if rem.isEmpty then some (Except.ok ([], 0, 0)) else none
  | fuel + 1, rem =>
      match rem with
      | [] => some (Except.ok ([], 0, 0))
      | k :: t =>
          match processBatch cgs ((k :: t).take bs.toNat) with
          | Except.error e => some (Except.error e)
          | Except.ok (outs, n) =>
              match runBatchFuel cgs bs fuel ((k :: t).drop bs.toNat) with
              | none => none
              | some (Except.error e) => some (Except.error e)
              | some (Except.ok (outs2, ns, nf)) =>
                  some (Except.ok (outs ++ outs2, n + ns, nf))

/-- The driver's batched read loop terminates on a given input when some finite
fuel suffices for it to return a result (normal or fatal). -/
def batchLoopTerminates (cgs : List StdFst → Bool × List StdFst) (bs : Int)
    (input : List (String × StdFst)) : Prop :=
  ∃ fuel r, runBatchFuel cgs bs fuel input = some r

/-- Outcomes of the driver's resource-loading phase, as observed by the code:
whether `std::ifstream is(lex_rxfilename)` is good, what `VectorFst::Read`
returned (`none` models NULL), the `--read-disambig-syms` option value
(empty string means not supplied), and what `ReadIntegerVectorSimple` returned
for it (`none` models a read failure). -/
structure DriverEnv where
  lexOpenOk : Bool
  lexParse : Option StdFst
  disambigFilename : String
  disambigRead : Option (List Int)

/-- The driver's `main` after tree/model loading, parametric in the compiler
construction `mk` (the `TrainingGraphCompiler` constructor is not in this
snapshot): check the lexicon stream (`KALDI_EXIT` if not good), check the
parsed lexicon (`exit(1)` if NULL), read the disambiguation symbols when a
filename was supplied (`KALDI_ERR` on failure), then run the `batch_size == 1`
loop or the batched loop.  Every `Except.error` models termination with a
non-zero status; all three resource errors fire before the input archive is
touched, which the embedding shows by the `input` argument being unused on
those paths. -/
def driverMain (env : DriverEnv) (mk : StdFst → List Int → ReadyCompiler)
    (bs : Int) (fuel : Nat) (input : List (String × StdFst)) :
    Option (Except String (List (String × StdFst) × Nat × Nat)) :=
  if env.lexOpenOk then
    match env.lexParse with
    | none => some (Except.error "exit(1): lexicon FST read returned NULL")
    | some lex =>
        if env.disambigFilename ≠ "" ∧ env.disambigRead = none then
          some (Except.error "Could not read disambiguation symbols")
        else
          let syms :=
            if env.disambigFilename = "" then [] else env.disambigRead.getD []
          let gc := mk lex syms
          if bs = 1 then some (Except.ok (runSeq gc input))
          else runBatchFuel (CompileGraphs gc) bs fuel input
  else some (Except.error "Could not open lexicon FST")

/-- The two scale options the driver sets (lines 52-55 of the source): members
of `TrainingGraphCompilerOptions` relevant to the claims here. -/
structure TrainingGraphCompilerOptions where
  trans_prob_scale : Rat
  self_loop_scale : Rat
deriving DecidableEq, Repr

/-- The driver's own default configuration: it overrides both scales to 0.0
("since we will generally add the transition probs in the alignment phase"). -/
def driverGopts : TrainingGraphCompilerOptions :=
  { trans_prob_scale := 0, self_loop_scale := 0 }

/-- The identity (One) of the tropical min-plus semiring used by `StdArc`:
weight 0. -/
def tropicalOne : Rat := 0

/-- Tropical semiring multiplication (weight concatenation along a path):
numeric addition. -/
def tropicalTimes (a b : Rat) : Rat := a + b

/-- Modelled from the spec: the weight the HMM Topology Inserter stage puts on
a topology arc is the transition model's negated log probability scaled by the
caller-supplied scale factor (transition-probability scale for forward arcs,
self-loop-probability scale for self-loops); "a scale of zero means omit
transition-model probabilities entirely, leaving only structural arcs". -/
def hmmArcWeight (scale negLogProb : Rat) : Rat := scale * negLogProb

/-- Modelled from the spec: a `CompileGraph` call with the compiler state made
explicit.  Per-utterance state is fully isolated and the shared resources are
never mutated after initialization, so the call returns the compiler
unchanged. -/
def CompileGraphSt (gc : ReadyCompiler) (g : StdFst) :
    (Bool × StdFst) × ReadyCompiler :=
  (CompileGraph gc g, gc)

/-- A concrete ready compiler whose pipeline fails on every grammar (e.g. every
utterance is out-of-vocabulary). -/
def gcNone : ReadyCompiler := ⟨fun _ => none⟩

/-- A concrete ready compiler whose pipeline returns the grammar unchanged. -/
def gcId : ReadyCompiler := ⟨fun g => some g⟩

/-! ### Helper lemmas -/

/-- The graph written by the `batch_size == 1` path equals the graph component
of `CompileGraph`: on success they coincide, and on failure `CompileGraph`
already returns the empty graph, which `DeleteStates` leaves empty. -/
lemma seqWritten_eq_compiled (gc : ReadyCompiler) (g : StdFst) :
    seqWritten gc g = (CompileGraph gc g).2 := by
  unfold seqWritten CompileGraph
  cases gc.pipeline g <;> simp [deleteStates]

lemma zip_map_fst_snd (f : StdFst → StdFst) :
    ∀ l : List (String × StdFst),
      (l.map Prod.fst).zip (l.map (fun p => f p.2))
        = l.map (fun p => (p.1, f p.2))
  | [] => rfl
  | _ :: t => by simp [zip_map_fst_snd f t]

/-- The archive written by the `batch_size == 1` path, element-wise. -/
lemma runSeq_outs (gc : ReadyCompiler) :
    ∀ input : List (String × StdFst),
      (runSeq gc input).1 = input.map (fun p => (p.1, (CompileGraph gc p.2).2))
  | [] => rfl
  | (k, g) :: t => by
      simp [runSeq, runSeq_outs gc t, seqWritten_eq_compiled]

/-- A batch handed to the spec-modelled `CompileGraphs` never trips the
driver's fatal checks and yields the keys zipped with the compiled graphs. -/
lemma processBatch_compileGraphs (gc : ReadyCompiler)
    (batch : List (String × StdFst)) :
    processBatch (CompileGraphs gc) batch
      = Except.ok (batch.map (fun p => (p.1, (CompileGraph gc p.2).2)),
                   batch.length) := by
  unfold processBatch CompileGraphs
  simp [Function.comp_def]
  exact zip_map_fst_snd (fun g => (CompileGraph gc g).2) batch

/-- With a positive batch size and enough fuel, the batched loop completes
normally: it writes, key for key, the graphs of `CompileGraph`, counts every
utterance as succeeded, and never increments `num_fail`. -/
lemma runBatchFuel_ok (gc : ReadyCompiler) (bs : Int) (hbs : 1 ≤ bs) :
    ∀ fuel rem, rem.length ≤ fuel →
      runBatchFuel (CompileGraphs gc) bs fuel rem
        = some (Except.ok
            (rem.map (fun p => (p.1, (CompileGraph gc p.2).2)),
             rem.length, 0)) := by
  intro fuel
  induction fuel with
  | zero =>
      intro rem hrem
      have : rem = [] := List.eq_nil_of_length_eq_zero (Nat.le_zero.mp hrem)
      subst this
      simp [runBatchFuel]
  | succ n ih =>
      intro rem hrem
      match rem with
      | [] => simp [runBatchFuel]
      | k :: t =>
          have hpos : 1 ≤ bs.toNat := by omega
          have hdrop : ((k :: t).drop bs.toNat).length ≤ n := by
            simp only [List.length_drop]
            simp only [List.length_cons] at hrem ⊢
            omega
          have hrec := ih ((k :: t).drop bs.toNat) hdrop
          show (match processBatch (CompileGraphs gc) ((k :: t).take bs.toNat) with
            | Except.error e => some (Except.error e)
            | Except.ok (outs, n') =>
                match runBatchFuel (CompileGraphs gc) bs n ((k :: t).drop bs.toNat) with
                | none => none
                | some (Except.error e) => some (Except.error e)
                | some (Except.ok (outs2, ns, nf)) =>
                    some (Except.ok (outs ++ outs2, n' + ns, nf))) = _
          rw [processBatch_compileGraphs, hrec]
          simp only [← List.map_append, List.take_append_drop]
          have hlen : ((k :: t).take bs.toNat).length
              + ((k :: t).drop bs.toNat).length = (k :: t).length := by
            rw [← List.length_append, List.take_append_drop]
          rw [hlen]

/-- The `batch_size == 1` path's counters tally exactly the written graphs with
and without a valid start state, and partition the input. -/
lemma runSeq_counts (gc : ReadyCompiler) :
    ∀ input : List (String × StdFst),
      (runSeq gc input).2.1
          = ((runSeq gc input).1.filter (fun p => p.2.start.isSome)).length
      ∧ (runSeq gc input).2.2
          = ((runSeq gc input).1.filter (fun p => p.2.start.isNone)).length
      ∧ (runSeq gc input).2.1 + (runSeq gc input).2.2 = input.length
  | [] => by simp [runSeq]
  | (k, g) :: t => by
      obtain ⟨h1, h2, h3⟩ := runSeq_counts gc t
      cases hs : seqSucceeded gc g with
      | true =>
          have hw : (seqWritten gc g).start.isSome = true := hs
          obtain ⟨s, hsome⟩ := Option.isSome_iff_exists.mp hw
          simp [runSeq, hs, List.filter_cons, hsome, h1, h2]
          omega
      | false =>
          have hw : (seqWritten gc g).start.isSome = false := hs
          have hw' : (seqWritten gc g).start = none := by
            cases h : (seqWritten gc g).start with
            | none => rfl
            | some s => rw [h] at hw; simp at hw
          simp [runSeq, hs, List.filter_cons, hw', h1, h2]
          omega

/-- With a non-positive batch size, the inner fill loop admits no iteration, so
the batched loop never consumes input and runs out of any finite fuel on any
non-empty archive. -/
lemma runBatchFuel_nonpos_diverges (gc : ReadyCompiler) (bs : Int)
    (hbs : bs ≤ 0) (k : String × StdFst) (t : List (String × StdFst)) :
    ∀ fuel, runBatchFuel (CompileGraphs gc) bs fuel (k :: t) = none := by
  have h0 : bs.toNat = 0 := by omega
  intro fuel
  induction fuel with
  | zero => simp [runBatchFuel]
  | succ n ih =>
      show (match processBatch (CompileGraphs gc) ((k :: t).take bs.toNat) with
        | Except.error e => some (Except.error e)
        | Except.ok (outs, n') =>
            match runBatchFuel (CompileGraphs gc) bs n ((k :: t).drop bs.toNat) with
            | none => none
            | some (Except.error e) => some (Except.error e)
            | some (Except.ok (outs2, ns, nf)) =>
                some (Except.ok (outs ++ outs2, n' + ns, nf))) = none
      rw [h0]
      simp only [List.take_zero, List.drop_zero]
      rw [processBatch_compileGraphs, ih]

/-! ### Claims -/

/-- C1: for every finite sequence of grammars, the driver run with
`batch_size = 1` (sequential `CompileGraph` calls) and the driver run with
`batch_size > 1` (`CompileGraphs` over batches) write, key for key, identical
decoding graphs to the output archive. -/
theorem C1_batch_matches_sequential (gc : ReadyCompiler) (bs : Int)
    (input : List (String × StdFst)) (hbs : 1 < bs) :
    ∃ ns nf, runBatchFuel (CompileGraphs gc) bs (input.length + 1) input
        = some (Except.ok ((runSeq gc input).1, ns, nf)) := by
  refine ⟨input.length, 0, ?_⟩
  rw [runBatchFuel_ok gc bs (le_of_lt hbs) (input.length + 1) input
    (Nat.le_succ _), runSeq_outs]

/-- Witness for C1 at a concrete input: an identity pipeline, batch size 2,
one utterance. -/
theorem C1_batch_matches_sequential_witness :
    (1 : Int) < 2
    ∧ ∃ ns nf, runBatchFuel (CompileGraphs gcId) 2 2 [("a", emptyFst)]
        = some (Except.ok ((runSeq gcId [("a", emptyFst)]).1, ns, nf)) :=
  ⟨by decide, C1_batch_matches_sequential gcId 2 [("a", emptyFst)] (by decide)⟩

/-- C3: in the `batch_size = 1` path, every utterance gets an entry in the
output archive under its own key (keys are never omitted and order is
preserved), and an utterance whose `CompileGraph` call fails gets the empty
graph (no states, no start state) written for its key. -/
theorem C3_failed_utterances_written_empty (gc : ReadyCompiler)
    (input : List (String × StdFst)) :
    (runSeq gc input).1
        = input.map (fun p => (p.1,
            if (CompileGraph gc p.2).1 then (CompileGraph gc p.2).2 else emptyFst))
    ∧ ∀ p, p ∈ input → (CompileGraph gc p.2).1 = false →
        (p.1, emptyFst) ∈ (runSeq gc input).1 := by
  have heq : (runSeq gc input).1
      = input.map (fun p => (p.1,
          if (CompileGraph gc p.2).1 then (CompileGraph gc p.2).2 else emptyFst)) := by
    rw [runSeq_outs]
    apply List.map_congr_left
    intro p _
    cases hp : gc.pipeline p.2 <;> simp [CompileGraph, hp]
  refine ⟨heq, ?_⟩
  intro p hp hfail
  rw [heq]
  exact List.mem_map.mpr ⟨p, hp, by rw [hfail]; simp⟩

/-- Witness for C3 at a concrete input: a pipeline that fails on every grammar,
one utterance. -/
theorem C3_failed_utterances_written_empty_witness :
    ("k", emptyFst) ∈ [(("k" : String), emptyFst)]
    ∧ (CompileGraph gcNone emptyFst).1 = false
    ∧ ("k", emptyFst) ∈ (runSeq gcNone [("k", emptyFst)]).1 := by
  refine ⟨by simp, by rfl, ?_⟩
  exact (C3_failed_utterances_written_empty gcNone [("k", emptyFst)]).2
    ("k", emptyFst) (by simp) (by rfl)

/-- C4: for every finite input archive with keys `[k1, ..., kn]` in order, the
output archive contains exactly those keys in the same order, one entry per
input key, in both the `batch_size = 1` path and the batched path (including
keys whose compilation failed). -/
theorem C4_keys_preserved (gc : ReadyCompiler) (bs : Int)
    (input : List (String × StdFst)) (hbs : 1 ≤ bs) :
    (runSeq gc input).1.map Prod.fst = input.map Prod.fst
    ∧ ∃ outs ns nf,
        runBatchFuel (CompileGraphs gc) bs (input.length + 1) input
          = some (Except.ok (outs, ns, nf))
        ∧ outs.map Prod.fst = input.map Prod.fst := by
  constructor
  · rw [runSeq_outs]; simp
  · refine ⟨input.map (fun p => (p.1, (CompileGraph gc p.2).2)),
      input.length, 0, ?_, by simp⟩
    exact runBatchFuel_ok gc bs hbs (input.length + 1) input (Nat.le_succ _)

/-- Witness for C4 at a concrete input: a failing pipeline, batch size 3, two
utterances. -/
theorem C4_keys_preserved_witness :
    (1 : Int) ≤ 3
    ∧ ((runSeq gcNone [("k1", emptyFst), ("k2", emptyFst)]).1.map Prod.fst
          = [("k1", emptyFst), ("k2", emptyFst)].map Prod.fst
        ∧ ∃ outs ns nf,
            runBatchFuel (CompileGraphs gcNone) 3 3 [("k1", emptyFst), ("k2", emptyFst)]
              = some (Except.ok (outs, ns, nf))
            ∧ outs.map Prod.fst = [("k1", emptyFst), ("k2", emptyFst)].map Prod.fst) :=
  ⟨by decide, C4_keys_preserved gcNone 3 [("k1", emptyFst), ("k2", emptyFst)] (by decide)⟩

/-- C2 (counterexample): the claim that, regardless of `batch_size`, an
utterance is counted as failed exactly when its emitted graph is empty is
false on the code: with `batch_size = 2` and a single utterance whose
compilation fails, the batched path writes the empty graph for its key yet
reports `num_succeed = 1, num_fail = 0` (the batched loop only ever executes
`num_succeed += fsts.size()`), so the failed count (0) differs from the number
of empty emitted graphs (1). -/
theorem C2_counts_counterexample :
    runBatchFuel (CompileGraphs gcNone) 2 2 [("u1", emptyFst)]
        = some (Except.ok ([("u1", emptyFst)], 1, 0))
    ∧ ((0 : Nat)
        ≠ (([(("u1" : String), emptyFst)]).filter
            (fun p => p.2 = emptyFst)).length) := by
  constructor
  · rfl
  · simp

/-- C2 (amended): in the `batch_size = 1` path the counters partition the
input, an utterance being counted as failed exactly when the graph written for
its key has no valid start state (in particular whenever its compilation
failed, since the driver then writes the empty graph); in the batched path
(`batch_size != 1`, with a positive batch size and the run completing) every
utterance is counted as succeeded and `num_fail` stays 0, regardless of which
emitted graphs are empty.  In both paths `num_succeed + num_fail` equals the
number of input utterances. -/
theorem C2_amended_counts (gc : ReadyCompiler) (bs : Int)
    (input : List (String × StdFst)) (hbs : 1 ≤ bs) (_hne : bs ≠ 1) :
    ((runSeq gc input).2.1
        = ((runSeq gc input).1.filter (fun p => p.2.start.isSome)).length
      ∧ (runSeq gc input).2.2
        = ((runSeq gc input).1.filter (fun p => p.2.start.isNone)).length
      ∧ (runSeq gc input).2.1 + (runSeq gc input).2.2 = input.length)
    ∧ runBatchFuel (CompileGraphs gc) bs (input.length + 1) input
        = some (Except.ok
            (input.map (fun p => (p.1, (CompileGraph gc p.2).2)),
             input.length, 0)) :=
  ⟨runSeq_counts gc input,
   runBatchFuel_ok gc bs hbs (input.length + 1) input (Nat.le_succ _)⟩

/-- Witness for C2 (amended) at a concrete input: a failing pipeline, batch
size 2, one utterance. -/
theorem C2_amended_counts_witness :
    ((1 : Int) ≤ 2 ∧ (2 : Int) ≠ 1)
    ∧ (((runSeq gcNone [("u1", emptyFst)]).2.1
          = ((runSeq gcNone [("u1", emptyFst)]).1.filter
              (fun p => p.2.start.isSome)).length
        ∧ (runSeq gcNone [("u1", emptyFst)]).2.2
          = ((runSeq gcNone [("u1", emptyFst)]).1.filter
              (fun p => p.2.start.isNone)).length
        ∧ (runSeq gcNone [("u1", emptyFst)]).2.1
            + (runSeq gcNone [("u1", emptyFst)]).2.2
          = [(("u1" : String), emptyFst)].length)
      ∧ runBatchFuel (CompileGraphs gcNone) 2 ([(("u1" : String), emptyFst)].length + 1)
            [("u1", emptyFst)]
          = some (Except.ok
              ([(("u1" : String), emptyFst)].map
                (fun p => (p.1, (CompileGraph gcNone p.2).2)),
               [(("u1" : String), emptyFst)].length, 0))) :=
  ⟨⟨by decide, by decide⟩,
   C2_amended_counts gcNone 2 [("u1", emptyFst)] (by decide) (by decide)⟩

/-- C5: in the batched path, if `CompileGraphs` returns false on a batch, or
produces a number of graphs different from the number of keys, the whole run
aborts fatally (`KALDI_ERR` / the assertion): the batch-level contract
violation is never degraded to a per-utterance failure. -/
theorem C5_batch_contract_violation_fatal
    (cgs : List StdFst → Bool × List StdFst) (bs : Int) (fuel : Nat)
    (k : String × StdFst) (t : List (String × StdFst))
    (h : (cgs (((k :: t).take bs.toNat).map Prod.snd)).1 = false
         ∨ (cgs (((k :: t).take bs.toNat).map Prod.snd)).2.length
             ≠ ((k :: t).take bs.toNat).length) :
    (∃ e, processBatch cgs ((k :: t).take bs.toNat) = Except.error e)
    ∧ ∃ e, runBatchFuel cgs bs (fuel + 1) (k :: t) = some (Except.error e) := by
  have hpb : ∃ e, processBatch cgs ((k :: t).take bs.toNat) = Except.error e := by
    simp only [processBatch]
    rcases hr : cgs (((k :: t).take bs.toNat).map Prod.snd) with ⟨b, fsts⟩
    cases b with
    | false => exact ⟨_, rfl⟩
    | true =>
        rcases h with h | h
        · rw [hr] at h; simp at h
        · rw [hr] at h
          simp only [List.length_map]
          rw [if_neg (by simpa using h)]
          exact ⟨_, rfl⟩
  obtain ⟨e, he⟩ := hpb
  refine ⟨⟨e, he⟩, ⟨e, ?_⟩⟩
  show (match processBatch cgs ((k :: t).take bs.toNat) with
    | Except.error e => some (Except.error e)
    | Except.ok (outs, n') =>
        match runBatchFuel cgs bs fuel ((k :: t).drop bs.toNat) with
        | none => none
        | some (Except.error e) => some (Except.error e)
        | some (Except.ok (outs2, ns, nf)) =>
            some (Except.ok (outs ++ outs2, n' + ns, nf))) = some (Except.error e)
  rw [he]

/-- Witness for C5 at a concrete input: a batch-compilation function that
returns false, batch size 2, one utterance. -/
theorem C5_batch_contract_violation_fatal_witness :
    (((fun _ => (false, [])) : List StdFst → Bool × List StdFst)
        (((("u", emptyFst) :: []).take (2 : Int).toNat).map Prod.snd)).1 = false
    ∧ ((∃ e, processBatch (fun _ => (false, []))
          ((("u", emptyFst) :: []).take (2 : Int).toNat) = Except.error e)
      ∧ ∃ e, runBatchFuel (fun _ => (false, [])) 2 (0 + 1) (("u", emptyFst) :: [])
          = some (Except.error e)) :=
  ⟨rfl, C5_batch_contract_violation_fatal (fun _ => (false, [])) 2 0
    ("u", emptyFst) [] (Or.inl rfl)⟩

/-- C6: if the lexicon FST file cannot be opened, the lexicon FST cannot be
parsed, or a supplied disambiguation-symbol file cannot be read, the driver
terminates with a non-zero status (an error result), and it does so before any
utterance is read from the input archive or any output entry is written: the
result is the same error for every input archive, in particular the same as on
the empty archive. -/
theorem C6_resource_errors_abort_early (env : DriverEnv)
    (mk : StdFst → List Int → ReadyCompiler) (bs : Int) (fuel : Nat)
    (input : List (String × StdFst))
    (h : env.lexOpenOk = false ∨ env.lexParse = none
         ∨ (env.disambigFilename ≠ "" ∧ env.disambigRead = none)) :
    (∃ e, driverMain env mk bs fuel input = some (Except.error e))
    ∧ driverMain env mk bs fuel input = driverMain env mk bs fuel [] := by
  rcases h with h | h | ⟨h1, h2⟩
  · refine ⟨⟨"Could not open lexicon FST", ?_⟩, ?_⟩ <;> simp [driverMain, h]
  · cases hopen : env.lexOpenOk
    · refine ⟨⟨"Could not open lexicon FST", ?_⟩, ?_⟩ <;> simp [driverMain, hopen]
    · refine ⟨⟨"exit(1): lexicon FST read returned NULL", ?_⟩, ?_⟩ <;>
        simp [driverMain, hopen, h]
  · cases hopen : env.lexOpenOk
    · refine ⟨⟨"Could not open lexicon FST", ?_⟩, ?_⟩ <;> simp [driverMain, hopen]
    · cases hparse : env.lexParse with
      | none =>
          refine ⟨⟨"exit(1): lexicon FST read returned NULL", ?_⟩, ?_⟩ <;>
            simp [driverMain, hopen, hparse]
      | some lex =>
          refine ⟨⟨"Could not read disambiguation symbols", ?_⟩, ?_⟩ <;>
            simp [driverMain, hopen, hparse, h1, h2]

/-- Witness for C6 at a concrete input: an environment whose lexicon stream is
not good, with one utterance in the archive. -/
theorem C6_resource_errors_abort_early_witness :
    ((DriverEnv.mk false none "" none).lexOpenOk = false
      ∨ (DriverEnv.mk false none "" none).lexParse = none
      ∨ ((DriverEnv.mk false none "" none).disambigFilename ≠ ""
          ∧ (DriverEnv.mk false none "" none).disambigRead = none))
    ∧ ((∃ e, driverMain (DriverEnv.mk false none "" none) (fun _ _ => gcNone) 1 0
          [("k", emptyFst)] = some (Except.error e))
      ∧ driverMain (DriverEnv.mk false none "" none) (fun _ _ => gcNone) 1 0
            [("k", emptyFst)]
          = driverMain (DriverEnv.mk false none "" none) (fun _ _ => gcNone) 1 0 []) :=
  ⟨Or.inl rfl, C6_resource_errors_abort_early (DriverEnv.mk false none "" none)
    (fun _ _ => gcNone) 1 0 [("k", emptyFst)] (Or.inl rfl)⟩

/-- C7: with transition-probability scale and self-loop-probability scale both
zero — the driver's default configuration — every arc weight contributed by the
HMM Topology Inserter stage is the identity weight of the tropical semiring,
so concatenating such a contribution onto a path leaves the grammar's own path
weight unchanged (no probability mass injected). -/
theorem C7_zero_scales_identity_weights (p q w : Rat) :
    driverGopts.trans_prob_scale = 0
    ∧ driverGopts.self_loop_scale = 0
    ∧ hmmArcWeight driverGopts.trans_prob_scale p = tropicalOne
    ∧ hmmArcWeight driverGopts.self_loop_scale q = tropicalOne
    ∧ tropicalTimes w (hmmArcWeight driverGopts.trans_prob_scale p) = w
    ∧ tropicalTimes w (hmmArcWeight driverGopts.self_loop_scale q) = w := by
  refine ⟨rfl, rfl, ?_, ?_, ?_, ?_⟩ <;>
    simp [hmmArcWeight, tropicalOne, tropicalTimes, driverGopts]

/-- C8: for every grammar and every compiler instance in the ready state,
compiling the same grammar twice against the same instance yields equal
decoding graphs and the same success flag on both calls (the first call leaves
the compiler unchanged, and compilation is a pure function of the immutable
shared resources and the grammar). -/
theorem C8_compile_idempotent (gc : ReadyCompiler) (g : StdFst) :
    (CompileGraphSt gc g).2 = gc
    ∧ (CompileGraphSt (CompileGraphSt gc g).2 g).1 = (CompileGraphSt gc g).1 := by
  exact ⟨rfl, rfl⟩

/-- C9: the driver's batched read loop terminates on every finite input archive
if and only if `batch_size >= 1`: the code never validates the batch size, and
for `batch_size <= 0` the inner fill loop admits no iteration, the reader is
never advanced, and the outer loop runs forever without consuming any input
(while the empty archive alone always terminates immediately). -/
theorem C9_terminates_iff_positive_batch (gc : ReadyCompiler) (bs : Int) :
    (∀ input : List (String × StdFst),
        batchLoopTerminates (CompileGraphs gc) bs input)
    ↔ 1 ≤ bs := by
  constructor
  · intro h
    by_contra hbs
    have hbs' : bs ≤ 0 := by omega
    obtain ⟨fuel, r, hr⟩ := h [("k", emptyFst)]
    rw [runBatchFuel_nonpos_diverges gc bs hbs' ("k", emptyFst) [] fuel] at hr
    exact Option.noConfusion hr
  · intro hbs input
    exact ⟨input.length + 1, _,
      runBatchFuel_ok gc bs hbs (input.length + 1) input (Nat.le_succ _)⟩

/-- C10: in the `batch_size = 1` path, an utterance is counted as succeeded if
and only if the graph written for its key has a valid start state; an utterance
for which `CompileGraph` returns true but whose graph has no states is counted
as failed (a valid start state must lie below the state count), and an
utterance for which `CompileGraph` returns false is always counted as failed,
because the driver first deletes all states from its graph. -/
theorem C10_success_criterion_is_start_state (gc : ReadyCompiler) (g : StdFst)
    (hwf : ∀ s, (CompileGraph gc g).2.start = some s
        → s < (CompileGraph gc g).2.numStates) :
    (seqSucceeded gc g = true ↔ (seqWritten gc g).start ≠ none)
    ∧ ((CompileGraph gc g).1 = true → (CompileGraph gc g).2.numStates = 0
        → seqSucceeded gc g = false)
    ∧ ((CompileGraph gc g).1 = false → seqSucceeded gc g = false) := by
  refine ⟨?_, ?_, ?_⟩
  · unfold seqSucceeded
    exact Option.isSome_iff_ne_none
  · intro hok hzero
    unfold seqSucceeded
    rw [seqWritten_eq_compiled]
    cases hstart : (CompileGraph gc g).2.start with
    | none => rfl
    | some s =>
        have := hwf s hstart
        rw [hzero] at this
        exact absurd this (Nat.not_lt_zero s)
  · intro hfail
    show (if (CompileGraph gc g).1 then (CompileGraph gc g).2
        else deleteStates (CompileGraph gc g).2).start.isSome = false
    rw [hfail]
    simp [deleteStates, emptyFst]

/-- Witness for C10 at a concrete input: a failing pipeline, whose compiled
graph is the empty FST (start `none`), so the start-validity hypothesis holds
vacuously. -/
theorem C10_success_criterion_is_start_state_witness :
    (∀ s, (CompileGraph gcNone emptyFst).2.start = some s
        → s < (CompileGraph gcNone emptyFst).2.numStates)
    ∧ ((seqSucceeded gcNone emptyFst = true
          ↔ (seqWritten gcNone emptyFst).start ≠ none)
      ∧ ((CompileGraph gcNone emptyFst).1 = true
          → (CompileGraph gcNone emptyFst).2.numStates = 0
          → seqSucceeded gcNone emptyFst = false)
      ∧ ((CompileGraph gcNone emptyFst).1 = false
          → seqSucceeded gcNone emptyFst = false)) :=
  ⟨fun s hs => by simp [CompileGraph, gcNone, emptyFst] at hs,
   C10_success_criterion_is_start_state gcNone emptyFst
     (fun s hs => by simp [CompileGraph, gcNone, emptyFst] at hs)⟩

/-- Witness for C7 at concrete weights. -/
theorem C7_zero_scales_identity_weights_witness :
    driverGopts.trans_prob_scale = 0
    ∧ driverGopts.self_loop_scale = 0
    ∧ hmmArcWeight driverGopts.trans_prob_scale 5 = tropicalOne
    ∧ hmmArcWeight driverGopts.self_loop_scale 7 = tropicalOne
    ∧ tropicalTimes 3 (hmmArcWeight driverGopts.trans_prob_scale 5) = 3
    ∧ tropicalTimes 3 (hmmArcWeight driverGopts.self_loop_scale 7) = 3 :=
  C7_zero_scales_identity_weights 5 7 3

/-- Witness for C8 at a concrete compiler and grammar. -/
theorem C8_compile_idempotent_witness :
    (CompileGraphSt gcId emptyFst).2 = gcId
    ∧ (CompileGraphSt (CompileGraphSt gcId emptyFst).2 emptyFst).1
        = (CompileGraphSt gcId emptyFst).1 :=
  C8_compile_idempotent gcId emptyFst

/-- Witness for C9 at a concrete compiler and batch size. -/
theorem C9_terminates_iff_positive_batch_witness :
    (∀ input : List (String × StdFst),
        batchLoopTerminates (CompileGraphs gcId) 2 input)
    ↔ (1 : Int) ≤ 2 :=
  C9_terminates_iff_positive_batch gcId 2
